import Mathlib

/-!
Shallow embedding of the banner-server registry logic (node-banner-server).

The repository re-implements the same banner CRUD against several storage
backends.  The claims cite two variants inside `src/Server.js` — the
JSONBin-with-priority variant (lines 1-327) and the MongoDB variant
(lines 327-614) — plus the upload route of `src/unnamed/part_005`.
All of them are embedded below, faithfully to the JavaScript semantics:
`x || d` with a falsy check (empty string / 0 falsy), `x !== undefined`
as an `Option` match, object-key assignment keeping the key position,
JS `Array.prototype.sort` as a stable sort, and `new Set` as a
first-seen-order dedup.
-/

namespace Banner

/-- A value stored under a key of `specific_banners`.  Across revisions it is
either a config object `{publicId, day, priority}` (fields may be absent),
a legacy bare `publicId` string, or a boolean (`false` marks inactive,
`true` appears as a reactivation fallback in an older variant). -/
inductive BVal where
  | obj (publicId : Option String) (day : Option String) (priority : Option Int)
  | str (s : String)
  | boolv (b : Bool)
  deriving DecidableEq, Repr

/-- The `specific_banners` mapping as an insertion-ordered association list
(JS objects preserve string-key insertion order). -/
abbrev Doc := List (String × BVal)

/-- JS truthiness of a stored value (`bannerConfig && bannerConfig !== false`
in the source is exactly a truthiness test on the values that occur). -/
def truthy : BVal → Bool
  | .obj _ _ _ => true
  | .str s => !(s == "")
  | .boolv b => b

/-- Property access `v.publicId`: `undefined` on non-objects. -/
def getPublicIdField : BVal → Option String
  | .obj p _ _ => p
  | _ => none

/-- Property access `v.day`: `undefined` on non-objects. -/
def getDayField : BVal → Option String
  | .obj _ d _ => d
  | _ => none

/-- Property access `v.priority`: `undefined` on non-objects. -/
def getPriorityField : BVal → Option Int
  | .obj _ _ p => p
  | _ => none

/-- Is the value a config object (new format)? -/
def isObjVal : BVal → Bool
  | .obj _ _ _ => true
  | _ => false

/-- JS `s || d` for an optional string (absent and `""` are falsy). -/
def jsOrStr (v : Option String) (d : String) : String :=
  match v with
  | none => d
  | some s => if s = "" then d else s

/-- JS `n || d` for an optional number (absent and `0` are falsy). -/
def jsOrInt (v : Option Int) (d : Int) : Int :=
  match v with
  | none => d
  | some p => if p = 0 then d else p

/-- `bannerConfig.day || 'random'` (Server.js line 134 / 175). -/
def effDay (v : BVal) : String := jsOrStr (getDayField v) "random"

/-- `bannerConfig.priority || 999` (Server.js line 140 / 177). -/
def effPriority (v : BVal) : Int := jsOrInt (getPriorityField v) 999

/-- First-match lookup `specific_banners[k]` (keys are unique in a JS object,
so first match is the match). -/
def lookupD (doc : Doc) (k : String) : Option BVal :=
  match doc with
  | [] => none
  | p :: rest => if p.1 = k then some p.2 else lookupD rest k

/-- JS object assignment `specific_banners[k] = v`: replaces the value in
place when the key exists (keeping its position), otherwise appends. -/
def setKey (doc : Doc) (k : String) (v : BVal) : Doc :=
  if doc.any (fun p => p.1 == k) then
    doc.map (fun p => if p.1 = k then (k, v) else p)
  else doc ++ [(k, v)]

/-- JS `delete specific_banners[k]`. -/
def removeKey (doc : Doc) (k : String) : Doc :=
  doc.filter (fun p => !(p.1 == k))

/-- Stable insertion of `x` into `l` by integer key: `x` goes before the
first element of strictly-or-equally greater key, hence before all
later-coming equals (stability). -/
def insertByKey {α : Type} (key : α → Int) (x : α) : List α → List α
  | [] => [x]
  | y :: ys => if key x ≤ key y then x :: y :: ys else y :: insertByKey key x ys

/-- Stable ascending sort by integer key — the semantics of ES2019
`Array.prototype.sort((a, b) => a.priority - b.priority)`. -/
def sortByKey {α : Type} (key : α → Int) : List α → List α
  | [] => []
  | x :: xs => insertByKey key x (sortByKey key xs)

/-- `[...new Set(l)]`: keep the first occurrence of each element. -/
def dedupFirstAux (seen : List String) : List String → List String
  | [] => []
  | x :: xs => if x ∈ seen then dedupFirstAux seen xs
               else x :: dedupFirstAux (x :: seen) xs

/-- First-seen-order deduplication, the meaning of `[...new Set(l)]`. -/
def dedupFirst (l : List String) : List String := dedupFirstAux [] l

/-- The filter-and-tag phase of `GET /api/banners` (Server.js lines
127-144): keep truthy entries whose effective day is `random` or today,
tagged with their effective priority. -/
def selectionPairs (doc : Doc) (today : String) : List (String × Int) :=
  doc.filterMap (fun p =>
    if truthy p.2 = true ∧ (effDay p.2 = "random" ∨ effDay p.2 = today)
    then some (p.1, effPriority p.2) else none)

/-- Full selection pipeline of `GET /api/banners` (JSONBin variant):
filter, stable sort by priority, project to URLs, dedup. -/
def selectionDoc (doc : Doc) (today : String) : List String :=
  dedupFirst ((sortByKey Prod.snd (selectionPairs doc today)).map Prod.fst)

/-- Outcome of the JSONBin fetch inside `getBannerConfig` (Server.js lines
32-51): missing `JSONBIN_BIN_ID`, a thrown fetch error, a response whose
`record` is falsy, or a record with an optional `specific_banners`. -/
inductive FetchResult where
  | noBinId
  | err
  | okNoRecord
  | okRecord (sb : Option Doc)
  deriving DecidableEq, Repr

/-- `getBannerConfig` (Server.js lines 32-51): every failure path returns
the default fallback `{ specific_banners: {} }`; a record normalises
`specific_banners || {}`. -/
def getBannerConfig : FetchResult → Doc
  | .noBinId => []
  | .err => []
  | .okNoRecord => []
  | .okRecord none => []
  | .okRecord (some d) => d

/-- `GET /api/banners` (JSONBin variant) end to end: read the config via
`getBannerConfig`, then select.  Total — never an error response. -/
def selectionRoute (f : FetchResult) (today : String) : List String :=
  selectionDoc (getBannerConfig f) today

/-- One row of the panel listing (`GET /api/config/banners/list`,
Server.js lines 170-186). -/
structure ListItem where
  fileName : String
  isDailyBanner : Bool
  isActive : Bool
  day : String
  priority : Int
  deriving DecidableEq, Repr

/-- Server.js lines 170-186: a listing row for one key.  Inactive (falsy)
entries are reported with `day = "random"`, `priority = 999`. -/
def listingEntry (url : String) (v : BVal) : ListItem :=
  let a := truthy v
  { fileName := url
    isDailyBanner := false
    isActive := a
    day := if a = true then effDay v else "random"
    priority := if a = true then effPriority v else 999 }

/-- `GET /api/config/banners/list` (JSONBin variant): map every key to a
row and stable-sort by priority (Server.js lines 163-195). -/
def listingDoc (doc : Doc) : List ListItem :=
  sortByKey (fun it => it.priority) (doc.map (fun p => listingEntry p.1 p.2))

/-- The document transformation of `PUT /api/config/banners` (JSONBin
variant, Server.js lines 210-236; the Redis variant in
`src/unnamed/part_003` lines 238-253 is the same merge).  A falsy current
value is treated as the empty base object; activation merges
`{publicId: base.publicId || 'unknown', day: day || base.day || 'random',
priority: priority !== undefined ? priority : (base.priority || 999)}`;
deactivation writes the literal `false`. -/
def jsonbinUpdate (doc : Doc) (file : String) (active : Bool)
    (dayArg : Option String) (priorityArg : Option Int) : Doc :=
  let base : BVal :=
    match lookupD doc file with
    | some v => if truthy v = true then v else .obj none none none
    | none => .obj none none none
  if active then
    setKey doc file (.obj
      (some (jsOrStr (getPublicIdField base) "unknown"))
      (some (jsOrStr dayArg (jsOrStr (getDayField base) "random")))
      (some (match priorityArg with
             | some p => p
             | none => jsOrInt (getPriorityField base) 999)))
  else
    setKey doc file (.boolv false)

/-- `POST /api/banners/upload` (JSONBin variant, Server.js lines 79-85):
insert `{publicId, day: 'random', priority: 999}` under the new URL. -/
def jsonbinUpload (doc : Doc) (url publicId : String) : Doc :=
  setKey doc url (.obj (some publicId) (some "random") (some 999))

/-- `POST /api/banners/upload` of `src/unnamed/part_005` (lines 321-326):
the new entry is stored as the literal `false` — inactive by default. -/
def part005Upload (doc : Doc) (publicId : String) : Doc :=
  setKey doc publicId (.boolv false)

/-- Result of `cloudinary.uploader.destroy`: `ok`, `not found`, or any
other result string (which the JSONBin delete route turns into a throw). -/
inductive CloudRes where
  | ok
  | notFound
  | failed
  deriving DecidableEq, Repr

/-- Outcome of `DELETE /api/banners/delete` (JSONBin variant). -/
inductive DelOut where
  | badRequest
  | internalError
  | success (doc : Doc)
  deriving DecidableEq, Repr

/-- `DELETE /api/banners/delete` (JSONBin variant, Server.js lines
272-324): missing `fileUrl`/`publicId` → 400; a hard Cloudinary failure
throws (500); `not found` only warns; the key is removed only when
`specific_banners[fileUrl]` is truthy, otherwise the delete proceeds and
still succeeds. -/
def jsonbinDelete (doc : Doc) (fileUrl publicId : String) (cres : CloudRes) :
    DelOut :=
  if fileUrl = "" ∨ publicId = "" then .badRequest
  else if cres = .failed then .internalError
  else .success
    (match lookupD doc fileUrl with
     | some v => if truthy v = true then removeKey doc fileUrl else doc
     | none => doc)

/-- One MongoDB banner document (MongoDB variant, Server.js lines
416-422). -/
structure MBanner where
  url : String
  publicId : String
  day : Option String
  priority : Option Int
  isActive : Bool
  deriving DecidableEq, Repr

/-- The `banners` collection. -/
abbrev MColl := List MBanner

/-- Outcome of reading the collection (connect + `find`): either the
documents or a thrown error. -/
inductive MongoFetch where
  | ok (coll : MColl)
  | err
  deriving DecidableEq, Repr

/-- `collection.findOne({url})`. -/
def findOneByUrl (coll : MColl) (u : String) : Option MBanner :=
  coll.find? (fun b => b.url == u)

/-- `collection.updateOne({url}, {$set: ...}, {upsert: false})`: update the
first matching document, returning `matchedCount` and the new collection. -/
def updateOneByUrl (coll : MColl) (u : String) (f : MBanner → MBanner) :
    Nat × MColl :=
  match coll with
  | [] => (0, [])
  | b :: rest =>
    if b.url = u then (1, f b :: rest)
    else
      match updateOneByUrl rest u f with
      | (m, r) => (m, b :: r)

/-- `collection.deleteOne({url})`: remove the first matching document. -/
def deleteOneByUrl (coll : MColl) (u : String) : MColl :=
  match coll with
  | [] => []
  | b :: rest => if b.url = u then rest else b :: deleteOneByUrl rest u

/-- Selection body of `GET /api/banners` (MongoDB variant, Server.js lines
488-515): `find({isActive: true})`, day filter with `day || 'random'`,
priority tag with `priority || 999`, stable sort, dedup. -/
def mongoSelection (coll : MColl) (today : String) : List String :=
  let pairs := (coll.filter (fun b => b.isActive)).filterMap (fun b =>
    if jsOrStr b.day "random" = "random" ∨ jsOrStr b.day "random" = today
    then some (b.url, jsOrInt b.priority 999) else none)
  dedupFirst ((sortByKey Prod.snd pairs).map Prod.fst)

/-- `GET /api/banners` (MongoDB variant, Server.js lines 485-527): a store
read error is caught and answered with HTTP 500 (lines 523-526) — not an
empty list. -/
def mongoBannersRoute (f : MongoFetch) (today : String) :
    Except Nat (List String) :=
  match f with
  | .err => .error 500
  | .ok coll => .ok (mongoSelection coll today)

/-- Outcome of `PUT /api/config/banners` (MongoDB variant). -/
inductive MPutOut where
  | badRequest
  | notFound (coll : MColl)
  | success (coll : MColl) (newDay : String) (newPriority : Int)
  deriving DecidableEq, Repr

/-- `PUT /api/config/banners` (MongoDB variant, Server.js lines 561-612):
build `updateData` (`day || 'random'`, `priority !== undefined ? priority
: 999`); when deactivating, re-read the current document to retain its
day/priority; `updateOne` with `upsert: false`; `matchedCount === 0` →
404 Not Found. -/
def mongoUpdateData (coll : MColl) (file : String) (active : Bool)
    (dayArg : Option String) (priorityArg : Option Int) : String × Int :=
  if active then
    (jsOrStr dayArg "random",
     match priorityArg with
     | some p => p
     | none => 999)
  else match findOneByUrl coll file with
    | some b => (jsOrStr b.day "random", jsOrInt b.priority 999)
    | none =>
      (jsOrStr dayArg "random",
       match priorityArg with
       | some p => p
       | none => 999)

/-- The `updateOne` call itself: `matchedCount` and the new collection. -/
def mongoUpdateRes (coll : MColl) (file : String) (active : Bool)
    (dayArg : Option String) (priorityArg : Option Int) : Nat × MColl :=
  updateOneByUrl coll file (fun b =>
    { b with
      isActive := active
      day := some (mongoUpdateData coll file active dayArg priorityArg).1
      priority :=
        some (mongoUpdateData coll file active dayArg priorityArg).2 })

/-- The route itself: validate, `updateOne` with `upsert: false`, 404 on
`matchedCount === 0`. -/
def mongoUpdate (coll : MColl) (file : String) (active : Bool)
    (dayArg : Option String) (priorityArg : Option Int) : MPutOut :=
  if file = "" then .badRequest
  else if (mongoUpdateRes coll file active dayArg priorityArg).1 = 0 then
    .notFound (mongoUpdateRes coll file active dayArg priorityArg).2
  else .success (mongoUpdateRes coll file active dayArg priorityArg).2
    (mongoUpdateData coll file active dayArg priorityArg).1
    (mongoUpdateData coll file active dayArg priorityArg).2

/-- Outcome of `DELETE /api/banners/delete` (MongoDB variant). -/
inductive MDelOut where
  | badRequest
  | notFound
  | success (coll : MColl)
  deriving DecidableEq, Repr

/-- `DELETE /api/banners/delete` (MongoDB variant, Server.js lines
441-481): missing `fileUrl` → 400; `findOne` misses → 404 (lines 452-456);
otherwise the Cloudinary destroy result is only warned about and the
document is removed. -/
def mongoDelete (coll : MColl) (fileUrl : String) : MDelOut :=
  if fileUrl = "" then .badRequest else
  match findOneByUrl coll fileUrl with
  | none => .notFound
  | some _ => .success (deleteOneByUrl coll fileUrl)

/-! ### Helper lemmas -/

theorem lookup_of_any_eq_false (doc : Doc) (k : String)
    (h : doc.any (fun p => p.1 == k) = false) : lookupD doc k = none := by
  induction doc with
  | nil => rfl
  | cons p rest ih =>
    simp only [List.any_cons, Bool.or_eq_false_iff, beq_eq_false_iff_ne] at h
    simp only [lookupD, if_neg h.1, ih h.2]

theorem lookup_map_set (doc : Doc) (k : String) (v : BVal)
    (h : doc.any (fun p => p.1 == k) = true) :
    lookupD (doc.map (fun p => if p.1 = k then (k, v) else p)) k = some v := by
  induction doc with
  | nil => simp at h
  | cons p rest ih =>
    rw [List.map_cons]
    by_cases hk : p.1 = k
    · rw [if_pos hk]
      simp [lookupD]
    · rw [if_neg hk]
      show (if p.1 = k then some p.2 else _) = some v
      rw [if_neg hk]
      apply ih
      simp only [List.any_cons, Bool.or_eq_true, beq_iff_eq] at h
      rcases h with h | h
      · exact absurd h hk
      · exact h

theorem lookup_map_set_ne (doc : Doc) (k k' : String) (v : BVal)
    (h : k' ≠ k) :
    lookupD (doc.map (fun p => if p.1 = k then (k, v) else p)) k' =
      lookupD doc k' := by
  induction doc with
  | nil => rfl
  | cons p rest ih =>
    rw [List.map_cons]
    by_cases hk : p.1 = k
    · rw [if_pos hk]
      have hp : ¬p.1 = k' := by rw [hk]; exact Ne.symm h
      show (if k = k' then some v else _) = if p.1 = k' then some p.2 else _
      rw [if_neg (Ne.symm h), if_neg hp, ih]
    · rw [if_neg hk]
      show (if p.1 = k' then some p.2 else _) = if p.1 = k' then some p.2 else _
      rw [ih]

theorem lookupD_append_single_self (doc : Doc) (k : String) (v : BVal)
    (h : lookupD doc k = none) : lookupD (doc ++ [(k, v)]) k = some v := by
  induction doc with
  | nil => simp [lookupD]
  | cons p rest ih =>
    rw [List.cons_append]
    simp only [lookupD] at h ⊢
    split at h
    · exact absurd h (by simp)
    · rename_i hne
      rw [if_neg hne]
      exact ih h

theorem lookupD_append_single_ne (doc : Doc) (k k' : String) (v : BVal)
    (h : k' ≠ k) : lookupD (doc ++ [(k, v)]) k' = lookupD doc k' := by
  induction doc with
  | nil =>
    show (if k = k' then some v else none) = none
    rw [if_neg (Ne.symm h)]
  | cons p rest ih =>
    rw [List.cons_append]
    simp only [lookupD, ih]

theorem lookupD_setKey_self (doc : Doc) (k : String) (v : BVal) :
    lookupD (setKey doc k v) k = some v := by
  unfold setKey
  split
  · exact lookup_map_set doc k v (by assumption)
  · rename_i h
    rw [Bool.not_eq_true] at h
    exact lookupD_append_single_self doc k v (lookup_of_any_eq_false doc k h)

theorem lookupD_setKey_ne (doc : Doc) (k k' : String) (v : BVal) (h : k' ≠ k) :
    lookupD (setKey doc k v) k' = lookupD doc k' := by
  unfold setKey
  split
  · exact lookup_map_set_ne doc k k' v h
  · exact lookupD_append_single_ne doc k k' v h

theorem mem_setKey_self_eq (doc : Doc) (k : String) (v w : BVal)
    (h : (k, w) ∈ setKey doc k v) : w = v := by
  unfold setKey at h
  split at h
  · rw [List.mem_map] at h
    obtain ⟨p, _, hp⟩ := h
    by_cases hk : p.1 = k
    · rw [if_pos hk] at hp
      exact ((Prod.mk.injEq _ _ _ _).mp hp).2.symm
    · rw [if_neg hk] at hp
      exact absurd (congrArg Prod.fst hp) hk
  · rename_i hany
    rw [Bool.not_eq_true] at hany
    rw [List.mem_append] at h
    rcases h with h | h
    · rw [List.any_eq_false] at hany
      have := hany (k, w) h
      simp at this
    · have : (k, w) = (k, v) := by simpa using h
      exact ((Prod.mk.injEq _ _ _ _).mp this).2

theorem lookupD_removeKey_self (doc : Doc) (k : String) :
    lookupD (removeKey doc k) k = none := by
  induction doc with
  | nil => rfl
  | cons p rest ih =>
    by_cases hk : p.1 = k
    · simpa [removeKey, List.filter_cons, hk] using ih
    · simpa [removeKey, List.filter_cons, hk, lookupD] using ih

theorem mem_removeKey (doc : Doc) (k : String) (x : String × BVal)
    (h : x ∈ removeKey doc k) : x ∈ doc ∧ x.1 ≠ k := by
  unfold removeKey at h
  rw [List.mem_filter] at h
  refine ⟨h.1, ?_⟩
  simpa using h.2

theorem mem_insertByKey {α : Type} (key : α → Int) (x y : α) (l : List α) :
    x ∈ insertByKey key y l ↔ x = y ∨ x ∈ l := by
  induction l with
  | nil => simp [insertByKey]
  | cons z zs ih =>
    simp only [insertByKey]
    split
    · simp
    · simp only [List.mem_cons, ih]
      tauto

theorem pairwise_insertByKey {α : Type} (key : α → Int) (x : α) (l : List α)
    (h : l.Pairwise (fun a b => key a ≤ key b)) :
    (insertByKey key x l).Pairwise (fun a b => key a ≤ key b) := by
  induction l with
  | nil => simp [insertByKey]
  | cons y ys ih =>
    rw [List.pairwise_cons] at h
    simp only [insertByKey]
    split
    · rename_i hle
      rw [List.pairwise_cons]
      refine ⟨?_, List.pairwise_cons.mpr h⟩
      intro z hz
      rcases List.mem_cons.mp hz with rfl | hz
      · exact hle
      · exact le_trans hle (h.1 z hz)
    · rename_i hlt
      rw [List.pairwise_cons]
      refine ⟨?_, ih h.2⟩
      intro z hz
      rcases (mem_insertByKey key z x ys).mp hz with rfl | hz
      · exact le_of_not_le hlt
      · exact h.1 z hz

theorem pairwise_sortByKey {α : Type} (key : α → Int) (l : List α) :
    (sortByKey key l).Pairwise (fun a b => key a ≤ key b) := by
  induction l with
  | nil => simp [sortByKey]
  | cons x xs ih => exact pairwise_insertByKey key x _ ih

theorem filter_insertByKey {α : Type} (key : α → Int) (x : α) (l : List α)
    (p : Int) :
    (insertByKey key x l).filter (fun y => key y = p) =
      if key x = p then x :: l.filter (fun y => key y = p)
      else l.filter (fun y => key y = p) := by
  induction l with
  | nil => simp [insertByKey, List.filter_cons]
  | cons y ys ih =>
    simp only [insertByKey]
    split
    · rename_i hle
      by_cases hx : key x = p
      · simp [List.filter_cons, hx]
      · simp [List.filter_cons, hx]
    · rename_i hlt
      have hy : key y ≠ p ∨ key x ≠ p ∨ False := by
        by_cases hx : key x = p
        · left
          intro hyp
          exact hlt (le_of_eq (hx ▸ hyp.symm ▸ rfl))
        · right; left; exact hx
      by_cases hx : key x = p
      · have hyne : key y ≠ p := by
          intro hyp
          exact hlt (by rw [hx, hyp])
        simp [List.filter_cons, hyne, ih, hx]
      · by_cases hyp : key y = p
        · simp [List.filter_cons, hyp, ih, hx]
        · simp [List.filter_cons, hyp, ih, hx]

theorem filter_sortByKey {α : Type} (key : α → Int) (l : List α) (p : Int) :
    (sortByKey key l).filter (fun y => key y = p) =
      l.filter (fun y => key y = p) := by
  induction l with
  | nil => rfl
  | cons x xs ih =>
    show (insertByKey key x (sortByKey key xs)).filter _ = _
    rw [filter_insertByKey]
    by_cases hx : key x = p
    · simp [List.filter_cons, hx, ih]
    · simp [List.filter_cons, hx, ih]

theorem mem_sortByKey {α : Type} (key : α → Int) (x : α) (l : List α) :
    x ∈ sortByKey key l ↔ x ∈ l := by
  induction l with
  | nil => simp [sortByKey]
  | cons y ys ih =>
    show x ∈ insertByKey key y (sortByKey key ys) ↔ _
    rw [mem_insertByKey, ih, List.mem_cons]

theorem mem_of_mem_dedupFirstAux (seen l : List String) (x : String)
    (h : x ∈ dedupFirstAux seen l) : x ∈ l := by
  induction l generalizing seen with
  | nil => simp [dedupFirstAux] at h
  | cons y ys ih =>
    simp only [dedupFirstAux] at h
    split at h
    · exact List.mem_cons_of_mem _ (ih _ h)
    · rcases List.mem_cons.mp h with rfl | h
      · exact List.mem_cons_self _ _
      · exact List.mem_cons_of_mem _ (ih _ h)

theorem mem_selectionPairs (doc : Doc) (t : String) (q : String × Int)
    (h : q ∈ selectionPairs doc t) :
    ∃ v, (q.1, v) ∈ doc ∧ truthy v = true ∧
      (effDay v = "random" ∨ effDay v = t) ∧ q.2 = effPriority v := by
  unfold selectionPairs at h
  rw [List.mem_filterMap] at h
  obtain ⟨p, hp, he⟩ := h
  split at he
  · rename_i hc
    obtain rfl : (p.1, effPriority p.2) = q := Option.some.inj he
    exact ⟨p.2, hp, hc.1, hc.2, rfl⟩
  · exact absurd he (by simp)

theorem mem_listingDoc (doc : Doc) (it : ListItem)
    (h : it ∈ listingDoc doc) :
    ∃ k w, (k, w) ∈ doc ∧ it = listingEntry k w := by
  unfold listingDoc at h
  rw [mem_sortByKey, List.mem_map] at h
  obtain ⟨p, hp, he⟩ := h
  exact ⟨p.1, p.2, hp, he.symm⟩

theorem updateOneByUrl_no_match (coll : MColl) (u : String)
    (f : MBanner → MBanner) (h : ∀ b ∈ coll, b.url ≠ u) :
    updateOneByUrl coll u f = (0, coll) := by
  induction coll with
  | nil => rfl
  | cons b rest ih =>
    simp only [updateOneByUrl, if_neg (h b (List.mem_cons_self _ _))]
    rw [ih fun c hc => h c (List.mem_cons_of_mem _ hc)]

theorem jsonbinUpdate_eq_setKey (doc : Doc) (file : String) (active : Bool)
    (dayArg : Option String) (priorityArg : Option Int) :
    ∃ v, jsonbinUpdate doc file active dayArg priorityArg
      = setKey doc file v := by
  unfold jsonbinUpdate
  cases active
  · exact ⟨_, rfl⟩
  · exact ⟨_, rfl⟩

/-! ### The claims -/

/-- Claim C1, counterexample.  In the cited JSONBin-variant `PUT`
(Server.js lines 216-236), deactivating the entry for `"u"` (day
`"monday"`, priority `5`) stores the literal `false`, so reactivating it
with no overrides rebuilds the entry from an empty base: the result is
`{publicId: "unknown", day: "random", priority: 999}`, not the original
day/priority. -/
theorem claim_C1_counterexample :
    lookupD (jsonbinUpdate (jsonbinUpdate
        [("u", BVal.obj (some "a") (some "monday") (some 5))]
        "u" false none none) "u" true none none) "u"
      = some (BVal.obj (some "unknown") (some "random") (some 999)) ∧
    BVal.obj (some "unknown") (some "random") (some 999) ≠
      BVal.obj (some "a") (some "monday") (some 5) :=
  ⟨by decide, by decide⟩

/-- Claim C1, amended.  In the JSONBin variant, deactivation collapses
the entry to the literal `false`, discarding day/priority/assetRef; a
subsequent no-override reactivation always yields `assetRef = "unknown"`,
`day = "random"`, `priority = 999` — the prior day and priority are
restored only when they were already these defaults. -/
theorem claim_C1_amended (doc : Doc) (file : String) :
    lookupD (jsonbinUpdate (jsonbinUpdate doc file false none none)
        file true none none) file
      = some (BVal.obj (some "unknown") (some "random") (some 999)) := by
  have h1 : jsonbinUpdate doc file false none none
      = setKey doc file (.boolv false) := rfl
  rw [h1]
  have h2 : lookupD (setKey doc file (.boolv false)) file
      = some (.boolv false) := lookupD_setKey_self _ _ _
  show lookupD (jsonbinUpdate (setKey doc file (.boolv false))
      file true none none) file = _
  unfold jsonbinUpdate
  rw [h2]
  exact lookupD_setKey_self _ _ _

/-- Claim C2: the JSONBin-variant partial update (Server.js lines
210-236) changes the document at most at the target key; every other key
keeps exactly its previous value — a targeted merge, never a replace of
the mapping. -/
theorem claim_C2_frame (doc : Doc) (file : String) (active : Bool)
    (dayArg : Option String) (priorityArg : Option Int) (k : String)
    (h : k ≠ file) :
    lookupD (jsonbinUpdate doc file active dayArg priorityArg) k
      = lookupD doc k := by
  obtain ⟨v, hv⟩ := jsonbinUpdate_eq_setKey doc file active dayArg priorityArg
  rw [hv]
  exact lookupD_setKey_ne doc file k v h

/-- Witness for C2 at a concrete document and key. -/
theorem claim_C2_frame_witness :
    lookupD (jsonbinUpdate [("a", BVal.boolv true), ("b", BVal.str "x")]
        "a" true none none) "b"
      = lookupD [("a", BVal.boolv true), ("b", BVal.str "x")] "b" :=
  claim_C2_frame [("a", BVal.boolv true), ("b", BVal.str "x")] "a" true
    none none "b" (by decide)

/-- Claim C3: every URL produced by the selection of `GET /api/banners`
(Server.js lines 127-144) comes from an entry of the document that is
truthy (active) and whose effective day is `"random"` or today's token;
no inactive entry and no entry for another day is selected. -/
theorem claim_C3_selection_sound (doc : Doc) (t url : String)
    (h : url ∈ selectionDoc doc t) :
    ∃ v, (url, v) ∈ doc ∧ truthy v = true ∧
      (effDay v = "random" ∨ effDay v = t) := by
  unfold selectionDoc dedupFirst at h
  have h1 := mem_of_mem_dedupFirstAux _ _ _ h
  rw [List.mem_map] at h1
  obtain ⟨q, hq, rfl⟩ := h1
  rw [mem_sortByKey] at hq
  obtain ⟨v, hv, ht, hd, _⟩ := mem_selectionPairs doc t q hq
  exact ⟨v, hv, ht, hd⟩

/-- Witness for C3 on a one-entry document. -/
theorem claim_C3_selection_sound_witness :
    ∃ v, ("u", v) ∈ ([("u", BVal.obj none none none)] : Doc) ∧
      truthy v = true ∧ (effDay v = "random" ∨ effDay v = "1") :=
  claim_C3_selection_sound [("u", BVal.obj none none none)] "1" "u"
    (by decide)

/-- Claim C4: the selection of `GET /api/banners` (Server.js lines
146-153) is sorted by priority ascending, equal priorities keep their
relative order from the document (stable sort, no secondary key), and the
final URL list is exactly the first-seen dedup of the sorted pairs. -/
theorem claim_C4_sorted_stable (doc : Doc) (t : String) :
    (sortByKey Prod.snd (selectionPairs doc t)).Pairwise
        (fun a b => a.2 ≤ b.2) ∧
    (∀ p : Int, (sortByKey Prod.snd (selectionPairs doc t)).filter
          (fun x => x.2 = p)
        = (selectionPairs doc t).filter (fun x => x.2 = p)) ∧
    selectionDoc doc t
      = dedupFirst ((sortByKey Prod.snd (selectionPairs doc t)).map
          Prod.fst) :=
  ⟨pairwise_sortByKey _ _, fun p => filter_sortByKey _ _ p, rfl⟩

/-- Claim C5, counterexample: in the MongoDB variant (Server.js lines
523-526) a store read error is answered with an HTTP 500 error response,
not with an empty banner sequence. -/
theorem claim_C5_counterexample :
    mongoBannersRoute MongoFetch.err "1" = Except.error 500 := rfl

/-- Claim C5, amended.  In the JSONBin variant selection never fails —
a missing bin id, a thrown fetch, a missing record and a missing mapping
all degrade to the empty sequence (Server.js lines 32-51) — while the
MongoDB variant surfaces a 500 error response on a store read failure. -/
theorem claim_C5_amended (t : String) :
    selectionRoute FetchResult.err t = [] ∧
    selectionRoute FetchResult.noBinId t = [] ∧
    selectionRoute FetchResult.okNoRecord t = [] ∧
    selectionRoute (FetchResult.okRecord none) t = [] :=
  ⟨rfl, rfl, rfl, rfl⟩

/-- Claim C6, counterexample: the cited JSONBin-variant `PUT` (Server.js
lines 210-236) upserts — updating the never-created id `"u"` succeeds and
inserts a fresh entry instead of failing with NotFound. -/
theorem claim_C6_counterexample :
    lookupD (jsonbinUpdate [] "u" true none none) "u"
      = some (BVal.obj (some "unknown") (some "random") (some 999)) := by
  decide

/-- Claim C6, amended.  Only the MongoDB variant (Server.js lines
589-597) behaves as claimed: with `upsert: false`, updating an id with no
document yields 404 Not Found and leaves the collection unchanged; the
JSONBin variant instead upserts a new entry. -/
theorem claim_C6_amended (coll : MColl) (file : String) (active : Bool)
    (dayArg : Option String) (priorityArg : Option Int)
    (hf : file ≠ "") (h : findOneByUrl coll file = none) :
    mongoUpdate coll file active dayArg priorityArg
      = MPutOut.notFound coll := by
  have hall : ∀ b ∈ coll, b.url ≠ file := by
    intro b hb
    rw [findOneByUrl, List.find?_eq_none] at h
    simpa using h b hb
  have hres : mongoUpdateRes coll file active dayArg priorityArg
      = (0, coll) := updateOneByUrl_no_match coll file _ hall
  unfold mongoUpdate
  rw [if_neg hf, hres]
  rfl

/-- Witness for C6 on the empty collection. -/
theorem claim_C6_amended_witness :
    mongoUpdate [] "u" true none none = MPutOut.notFound [] :=
  claim_C6_amended [] "u" true none none (by decide) rfl

/-- Claim C7, counterexample: the upload route of `src/unnamed/part_005`
(lines 321-326) stores the new entry as the literal `false`, so the
created banner starts inactive — listing reports `isActive = false` —
contradicting "always starts active=true, day='random', priority=999". -/
theorem claim_C7_counterexample :
    part005Upload [] "p" = [("p", BVal.boolv false)] ∧
    (listingDoc (part005Upload [] "p")).map (fun it => it.isActive)
      = [false] :=
  ⟨by decide, by decide⟩

/-- Claim C7, amended.  In the JSONBin-with-priority variant (Server.js
lines 79-85) upload does insert `{publicId: asset id, day: "random",
priority: 999}` — a truthy, hence active, entry — and an immediate
listing shows the new id exactly with `isActive = true, day = "random",
priority = 999`; the `part_005` variant instead stores `false`, starting
the entry inactive. -/
theorem claim_C7_amended (doc : Doc) (url pid : String) :
    lookupD (jsonbinUpload doc url pid) url
      = some (BVal.obj (some pid) (some "random") (some 999)) ∧
    ∀ it ∈ listingDoc (jsonbinUpload doc url pid), it.fileName = url →
      it = ⟨url, false, true, "random", 999⟩ := by
  constructor
  · exact lookupD_setKey_self _ _ _
  · intro it hit hname
    obtain ⟨k, w, hkw, rfl⟩ := mem_listingDoc _ _ hit
    have hk : k = url := hname
    subst hk
    have hw : w = BVal.obj (some pid) (some "random") (some 999) :=
      mem_setKey_self_eq doc k _ w hkw
    subst hw
    simp [listingEntry, truthy, effDay, effPriority, jsOrStr, jsOrInt,
      getDayField, getPriorityField]

/-- Witness for C7 at a concrete upload. -/
theorem claim_C7_amended_witness :
    lookupD (jsonbinUpload [] "u" "p") "u"
      = some (BVal.obj (some "p") (some "random") (some 999)) ∧
    listingEntry "u" (BVal.obj (some "p") (some "random") (some 999))
      = ⟨"u", false, true, "random", 999⟩ :=
  ⟨(claim_C7_amended [] "u" "p").1,
   (claim_C7_amended [] "u" "p").2
     (listingEntry "u" (BVal.obj (some "p") (some "random") (some 999)))
     (by decide) (by decide)⟩

/-- Claim C8, counterexample: the MongoDB-variant delete (Server.js lines
452-456) answers 404 Not Found when the id is absent — a second delete of
the same id errors instead of succeeding idempotently. -/
theorem claim_C8_counterexample : mongoDelete [] "u" = MDelOut.notFound := by
  decide

/-- Claim C8, amended.  The JSONBin-variant delete (Server.js lines
272-324) is tolerant and idempotent: an Asset-Host `not found` does not
fail it; deleting a truthy entry removes the key, after which the key no
longer appears in lookup or listing and a repeat delete still succeeds
with the document unchanged; a key whose stored value is the falsy
`false` is left in place though the delete still reports success.  The
MongoDB-variant delete instead 404s on an absent id. -/
theorem claim_C8_amended (doc : Doc) (url pid : String) (v : BVal)
    (hu : url ≠ "") (hp : pid ≠ "") (hv : lookupD doc url = some v)
    (ht : truthy v = true) :
    jsonbinDelete doc url pid CloudRes.notFound
        = DelOut.success (removeKey doc url) ∧
    lookupD (removeKey doc url) url = none ∧
    jsonbinDelete (removeKey doc url) url pid CloudRes.notFound
        = DelOut.success (removeKey doc url) ∧
    (∀ it ∈ listingDoc (removeKey doc url), it.fileName ≠ url) ∧
    (∀ doc₂ : Doc, lookupD doc₂ url = some (BVal.boolv false) →
        jsonbinDelete doc₂ url pid CloudRes.notFound
          = DelOut.success doc₂) := by
  have hne : ¬(url = "" ∨ pid = "") := by
    intro hc
    rcases hc with hc | hc
    · exact hu hc
    · exact hp hc
  refine ⟨?_, lookupD_removeKey_self doc url, ?_, ?_, ?_⟩
  · unfold jsonbinDelete
    rw [if_neg hne, hv]
    show DelOut.success (if truthy v = true then removeKey doc url else doc)
      = DelOut.success (removeKey doc url)
    rw [if_pos ht]
  · unfold jsonbinDelete
    rw [if_neg hne, lookupD_removeKey_self doc url]
    rfl
  · intro it hit
    obtain ⟨k, w, hkw, rfl⟩ := mem_listingDoc _ _ hit
    exact (mem_removeKey doc url (k, w) hkw).2
  · intro doc₂ h₂
    unfold jsonbinDelete
    rw [if_neg hne, h₂]
    rfl

/-- Witness for C8 at concrete documents. -/
theorem claim_C8_amended_witness :
    lookupD [("u", BVal.obj none none none)] "u"
        = some (BVal.obj none none none) ∧
    truthy (BVal.obj none none none) = true ∧
    jsonbinDelete [("u", BVal.obj none none none)] "u" "p"
        CloudRes.notFound = DelOut.success [] ∧
    lookupD ([] : Doc) "u" = none ∧
    jsonbinDelete ([] : Doc) "u" "p" CloudRes.notFound
        = DelOut.success [] ∧
    jsonbinDelete [("w", BVal.boolv false)] "w" "p" CloudRes.notFound
        = DelOut.success [("w", BVal.boolv false)] := by
  have h := claim_C8_amended [("u", BVal.obj none none none)] "u" "p"
    (BVal.obj none none none) (by decide) (by decide) (by decide)
    (by decide)
  have h2 := claim_C8_amended [("w", BVal.str "z")] "w" "p" (BVal.str "z")
    (by decide) (by decide) (by decide) (by decide)
  exact ⟨by decide, by decide, h.1, h.2.1, h.2.2.1,
    h2.2.2.2.2 [("w", BVal.boolv false)] (by decide)⟩

/-- Claim C9: the `priority || 999` fallback treats a stored priority of
`0` as unset everywhere — selection tags the entry with 999 (so it sorts
with the default, lowest-precedence key), listing reports 999, and an
`active = true` merge with no override writes 999 back, so the stored 0
is not preserved. -/
theorem claim_C9_priority_zero (pid dayf : Option String) (url t : String)
    (doc : Doc)
    (h : lookupD doc url = some (BVal.obj pid dayf (some 0))) :
    effPriority (BVal.obj pid dayf (some 0)) = 999 ∧
    effPriority (BVal.obj pid dayf (some 999)) = 999 ∧
    (listingEntry url (BVal.obj pid dayf (some 0))).priority = 999 ∧
    selectionPairs [(url, BVal.obj pid (some "random") (some 0))] t
        = [(url, 999)] ∧
    lookupD (jsonbinUpdate doc url true none none) url
        = some (BVal.obj (some (jsOrStr pid "unknown"))
            (some (jsOrStr dayf "random")) (some 999)) := by
  refine ⟨rfl, by simp [effPriority, jsOrInt, getPriorityField], ?_, ?_, ?_⟩
  · simp [listingEntry, truthy, effPriority, jsOrInt, getPriorityField]
  · simp [selectionPairs, truthy, effDay, effPriority, jsOrStr, jsOrInt,
      getDayField, getPriorityField]
  · unfold jsonbinUpdate
    rw [h]
    exact lookupD_setKey_self _ _ _

/-- Witness for C9 at a concrete document with stored priority 0. -/
theorem claim_C9_priority_zero_witness :
    lookupD [("u", BVal.obj (some "a") (some "monday") (some 0))] "u"
        = some (BVal.obj (some "a") (some "monday") (some 0)) ∧
    effPriority (BVal.obj (some "a") (some "monday") (some 0)) = 999 ∧
    (listingEntry "u"
        (BVal.obj (some "a") (some "monday") (some 0))).priority = 999 ∧
    lookupD (jsonbinUpdate
        [("u", BVal.obj (some "a") (some "monday") (some 0))]
        "u" true none none) "u"
      = some (BVal.obj (some "a") (some "monday") (some 999)) := by
  have h := claim_C9_priority_zero (some "a") (some "monday") "u" "1"
    [("u", BVal.obj (some "a") (some "monday") (some 0))] (by decide)
  exact ⟨by decide, h.1, h.2.2.1, h.2.2.2.2⟩

/-- Claim C10: any truthy non-object value — a legacy bare publicId
string, or the boolean `true` — is treated by selection and listing as an
active entry with day `"random"` and priority `999`; a value is inactive
exactly when it is falsy, i.e. the boolean `false` or the empty string. -/
theorem claim_C10_truthy_legacy (v : BVal) (url t : String) :
    (truthy v = true → isObjVal v = false →
      effDay v = "random" ∧ effPriority v = 999 ∧
      listingEntry url v = ⟨url, false, true, "random", 999⟩ ∧
      selectionPairs [(url, v)] t = [(url, 999)]) ∧
    (truthy v = false ↔ v = BVal.boolv false ∨ v = BVal.str "") := by
  constructor
  · intro ht hobj
    cases v with
    | obj p d pr => simp [isObjVal] at hobj
    | str s =>
      refine ⟨rfl, rfl, ?_, ?_⟩
      · simp [listingEntry, ht, effDay, effPriority, jsOrStr, jsOrInt,
          getDayField, getPriorityField]
      · simp [selectionPairs, ht, effDay, effPriority, jsOrStr, jsOrInt,
          getDayField, getPriorityField]
    | boolv b =>
      refine ⟨rfl, rfl, ?_, ?_⟩
      · simp [listingEntry, ht, effDay, effPriority, jsOrStr, jsOrInt,
          getDayField, getPriorityField]
      · simp [selectionPairs, ht, effDay, effPriority, jsOrStr, jsOrInt,
          getDayField, getPriorityField]
  · cases v with
    | obj p d pr => simp [truthy]
    | str s => simp [truthy]
    | boolv b =>
      cases b <;> simp [truthy]

/-- Witness for C10 on a legacy bare-publicId string entry. -/
theorem claim_C10_truthy_legacy_witness :
    truthy (BVal.str "legacy") = true ∧
    isObjVal (BVal.str "legacy") = false ∧
    effDay (BVal.str "legacy") = "random" ∧
    effPriority (BVal.str "legacy") = 999 ∧
    listingEntry "u" (BVal.str "legacy")
      = ⟨"u", false, true, "random", 999⟩ ∧
    selectionPairs [("u", BVal.str "legacy")] "3" = [("u", 999)] := by
  have h := (claim_C10_truthy_legacy (BVal.str "legacy") "u" "3").1
    (by decide) (by decide)
  exact ⟨by decide, by decide, h.1, h.2.1, h.2.2.1, h.2.2.2⟩

end Banner
